import Mathlib

/-!
Verification development for the SMTP email-deliverability prober
(`scripts/email-verifier.js`, `scripts/advanced-email-verifier.js`,
`scripts/bulk-email-processor.js`).

The JavaScript source is shallowly embedded: pure logic becomes Lean
functions; the mutable instance state (result cache, rate-limiter windows)
becomes explicit state passing over `AdvState`; the asynchronous
settlement of a probe session becomes a fold over an explicit list of
settlement signals; external effects (DNS resolution, the per-host SMTP
probe, the underlying verifier seen from the bulk layer) become oracle
parameters.  Timestamps (`Date.now()`) are natural numbers; JavaScript's
`now - ts < limit` comparisons only ever see `ts ≤ now` in the program,
so truncated `Nat` subtraction agrees with them.
-/

namespace SmtpVerify

/-- The closed set of status codes of a `VerificationOutcome`
(spec §3; the string literals assigned to `status` across the three
source files). -/
inductive Status where
  | invalid_format
  | no_mx_record
  | connection_failed
  | connection_rejected
  | handshake_failed
  | mail_from_rejected
  | valid
  | invalid
  | temporary_failure
  | unknown_response
  | rate_limited
  | error
  | batch_error
  deriving DecidableEq, Repr

/-- A verification outcome object, as built by the source at each
`resolve(...)` / `return ...` site.  `smtpResponse` is optional (absent on
outcomes produced before any SMTP reply was classified); `fromCache` is
absent (false) except on cache hits. -/
structure Outcome where
  email : String
  isValid : Bool
  status : Status
  message : String
  smtpResponse : Option String := none
  fromCache : Bool := false
  deriving DecidableEq, Repr

/-! ## SMTP reply-code parsing

`Number.parseInt(line.substring(0, 3))`: take the first (up to) three
characters, skip leading whitespace, read an optional sign and then a
maximal run of decimal digits; no digits means `NaN`, modelled as `none`.
Every numeric comparison in the source (`===`, `>=`, `<=`) is false on
`NaN`, which the embedding mirrors by matching on the `Option`. -/

def digitsToNat : List Char → Nat → Nat
  | [], acc => acc
  | c :: cs, acc => digitsToNat cs (acc * 10 + (c.toNat - '0'.toNat))

/-- JavaScript `Number.parseInt` (radix 10) on a short string: leading
whitespace, optional sign, maximal digit run; `none` for `NaN`. -/
def jsParseInt (s : String) : Option Int :=
  let cs := s.data.dropWhile (·.isWhitespace)
  let signAndRest : Bool × List Char :=
    match cs with
    | '-' :: rest => (true, rest)
    | '+' :: rest => (false, rest)
    | rest => (false, rest)
  let ds := signAndRest.2.takeWhile (·.isDigit)
  if ds.isEmpty then none
  else
    let n : Int := Int.ofNat (digitsToNat ds 0)
    some (if signAndRest.1 then -n else n)

/-- `Number.parseInt(line.substring(0, 3))` — the reply code of one SMTP
response line. -/
def parseCode (line : String) : Option Int :=
  jsParseInt (line.take 3)

/-! ## The SMTP conversation handler (`handleSmtpResponse`, `getNextStep`) -/

/-- The `step` variable of `verifyWithMxRecord` — which server reply the
session is waiting for next. -/
inductive Step where
  | connect
  | ehlo
  | helo
  | mail_from
  | rcpt_to
  | quit
  deriving DecidableEq, Repr

/-- An observable action of `handleSmtpResponse`: sending a command over
the socket (`sendCommand`) or settling the session (`resolve(...)`).
The order of actions in the returned list is the order the source
performs them. -/
inductive Action where
  | send (cmd : String)
  | settle (o : Outcome)
  deriving DecidableEq, Repr

/-- `handleSmtpResponse(socket, line, email, step, resolve)`: the ordered
actions taken for one complete reply line at a given step.  A `switch`
case that matches no branch (step `quit`) performs no action. -/
def handleSmtpResponse (localHostname fromEmail email : String) (step : Step)
    (line : String) : List Action :=
  let code := parseCode line
  match step with
  | .connect =>
    if code = some 220 then
      [.send ("EHLO " ++ localHostname)]
    else
      [.settle { email := email, isValid := false, status := .connection_rejected,
                 message := "Connection rejected: " ++ line, smtpResponse := some line }]
  | .ehlo =>
    if code = some 250 then
      [.send ("MAIL FROM:<" ++ fromEmail ++ ">")]
    else
      [.send ("HELO " ++ localHostname)]
  | .helo =>
    if code = some 250 then
      [.send ("MAIL FROM:<" ++ fromEmail ++ ">")]
    else
      [.settle { email := email, isValid := false, status := .handshake_failed,
                 message := "Handshake failed: " ++ line, smtpResponse := some line }]
  | .mail_from =>
    if code = some 250 then
      [.send ("RCPT TO:<" ++ email ++ ">")]
    else
      [.settle { email := email, isValid := false, status := .mail_from_rejected,
                 message := "MAIL FROM rejected: " ++ line, smtpResponse := some line }]
  | .rcpt_to =>
    [Action.send "QUIT",
     .settle (
       match code with
       | some c =>
         if c = 250 then
           { email := email, isValid := true, status := .valid,
             message := "Email address is valid", smtpResponse := some line }
         else if 500 ≤ c ∧ c ≤ 599 then
           { email := email, isValid := false, status := .invalid,
             message := "Email address rejected: " ++ line, smtpResponse := some line }
         else if 400 ≤ c ∧ c ≤ 499 then
           { email := email, isValid := false, status := .temporary_failure,
             message := "Temporary failure: " ++ line, smtpResponse := some line }
         else
           { email := email, isValid := false, status := .unknown_response,
             message := "Unknown response: " ++ line, smtpResponse := some line }
       | none =>
         { email := email, isValid := false, status := .unknown_response,
           message := "Unknown response: " ++ line, smtpResponse := some line })]
  | .quit => []

/-- `getNextStep(currentStep, response)`. -/
def getNextStep (currentStep : Step) (response : String) : Step :=
  let code := parseCode response
  match currentStep with
  | .connect => .ehlo
  | .ehlo => if code = some 250 then .mail_from else .helo
  | .helo => .mail_from
  | .mail_from => .rcpt_to
  | .rcpt_to => .quit
  | .quit => .quit

/-! ## Session settlement (`verifyWithMxRecord`)

The session's closure state: the `isResolved` guard, whether the socket
has been destroyed, and the settled value of the promise (if any).
Four asynchronous sources attempt settlement; each goes through
`resolveOnce` / `rejectOnce`. -/

/-- What the session promise settled to: `resolve(result)` or
`reject(error)` (error modelled by its message). -/
inductive Settlement where
  | resolved (o : Outcome)
  | rejected (errMsg : String)
  deriving DecidableEq, Repr

/-- The mutable closure state of one `verifyWithMxRecord` call. -/
structure SessionState where
  isResolved : Bool
  socketDestroyed : Bool
  settled : Option Settlement
  deriving DecidableEq, Repr

/-- The state before any event fires. -/
def initSession : SessionState :=
  { isResolved := false, socketDestroyed := false, settled := none }

/-- `cleanup()`: `if (!socket.destroyed) socket.destroy()`. -/
def cleanup (st : SessionState) : SessionState :=
  if st.socketDestroyed then st else { st with socketDestroyed := true }

/-- `resolveOnce(result)`: settle with `resolve` unless already settled,
destroying the socket on the settling path. -/
def resolveOnce (st : SessionState) (o : Outcome) : SessionState :=
  if st.isResolved then st
  else
    let st1 := { st with isResolved := true }
    let st2 := cleanup st1
    { st2 with settled := some (.resolved o) }

/-- `rejectOnce(error)`: settle with `reject` unless already settled,
destroying the socket on the settling path. -/
def rejectOnce (st : SessionState) (errMsg : String) : SessionState :=
  if st.isResolved then st
  else
    let st1 := { st with isResolved := true }
    let st2 := cleanup st1
    { st2 with settled := some (.rejected errMsg) }

/-- One of the four asynchronous settlement sources of a probe session:
a classified SMTP reply calling `resolve` (through `resolveOnce`), a
socket `error` event, the `setTimeout` timer or the socket's own timeout,
and an unexpected `close` event. -/
inductive SettleSignal where
  | smtpReply (o : Outcome)
  | socketError (msg : String)
  | timerTimeout
  | socketTimeout
  | socketClose
  deriving DecidableEq, Repr

/-- The handler each source runs when it fires. The `close` handler
checks `!isResolved` before calling `rejectOnce` (redundantly with the
guard inside `rejectOnce`). -/
def applySignal (st : SessionState) : SettleSignal → SessionState
  | .smtpReply o => resolveOnce st o
  | .socketError msg => rejectOnce st msg
  | .timerTimeout => rejectOnce st "Connection timeout"
  | .socketTimeout => rejectOnce st "Socket timeout"
  | .socketClose => if st.isResolved then st else rejectOnce st "Connection closed unexpectedly"

/-- The settlement a signal carries, were it to win the race. -/
def settlementOf : SettleSignal → Settlement
  | .smtpReply o => .resolved o
  | .socketError msg => .rejected msg
  | .timerTimeout => .rejected "Connection timeout"
  | .socketTimeout => .rejected "Socket timeout"
  | .socketClose => .rejected "Connection closed unexpectedly"

/-- Run the session's event handlers over a (temporally ordered) list of
fired settlement signals. -/
def runSignals (sigs : List SettleSignal) : SessionState :=
  sigs.foldl applySignal initSession

/-! ## Address syntax (`isValidEmailFormat`) -/

/-- A character admitted by the character class of
`/^[^\s@]+@[^\s@]+\.[^\s@]+$/`: non-whitespace and not `@`. -/
def okChar (c : Char) : Bool :=
  !c.isWhitespace && c ≠ '@'

/-- `isValidEmailFormat(email)`: the regex
`/^[^\s@]+@[^\s@]+\.[^\s@]+$/`.  A string matches exactly when it is
`local ++ "@" ++ domainPart` where `local` is the (nonempty) maximal
`@`-free prefix, both parts consist of `okChar` characters, and
`domainPart` contains a dot that is neither its first nor its last
character (the two `[^\s@]+` groups around the literal dot). -/
def isValidEmailFormat (email : String) : Bool :=
  let cs := email.data
  let localPart := cs.takeWhile (· ≠ '@')
  match cs.dropWhile (· ≠ '@') with
  | '@' :: domainPart =>
    !localPart.isEmpty && localPart.all okChar &&
    !domainPart.isEmpty && domainPart.all okChar &&
    ((domainPart.drop 1).dropLast).contains '.'
  | _ => false

/-- `email.split("@")[1]` — the text between the first and second `@`
(or to the end).  On a string with no `@` the JavaScript index is
`undefined`; the model returns `""` (only reachable for inputs that are
never valid addresses). -/
def domainOf (email : String) : String :=
  (email.splitOn "@").getD 1 ""

/-! ## Domain resolution (`getMxRecords`) -/

/-- One DNS mail-exchange record as returned by `dns.resolveMx`. -/
structure MxRecord where
  exchange : String
  priority : Int
  deriving DecidableEq, Repr

/-- Insert one record into a list already sorted ascending by priority,
before the first record of priority `≥` its own (stable insertion). -/
def insertMx (x : MxRecord) : List MxRecord → List MxRecord
  | [] => [x]
  | y :: ys => if x.priority ≤ y.priority then x :: y :: ys else y :: insertMx x ys

/-- `records.sort((a, b) => a.priority - b.priority)` — a stable sort
ascending by priority, embedded as stable insertion sort. -/
def sortMx : List MxRecord → List MxRecord
  | [] => []
  | x :: xs => insertMx x (sortMx xs)

/-- `getMxRecords(domain)`: the raw `resolveMx` result is an oracle
(`.ok records` for success, `.error` for a DNS failure).  On success the
records are sorted ascending by priority; on failure the function
swallows the error and returns `null`, modelled `none`. -/
def getMxRecords (resolveMxResult : Except String (List MxRecord)) :
    Option (List MxRecord) :=
  match resolveMxResult with
  | .ok records => some (sortMx records)
  | .error _ => none

/-! ## The orchestrator (`verifyEmail`)

The per-host probe `verifyWithMxRecord` is an oracle from host name to
either a fulfilled outcome or a rejection (`.error`).  `verifyEmail`
returns, besides the outcome, the ordered list of hosts actually probed
and whether DNS was queried, so that "no network access occurs" is a
provable statement. -/

/-- The MX failover loop of `verifyEmail` (lines 46–56): probe hosts in
order; a fulfilled outcome whose status is not `connection_failed` is
returned at once; a `connection_failed` outcome or a thrown error moves
on to the next host.  Also returns the hosts probed, in order. -/
def tryMx (probe : String → Except String Outcome) :
    List MxRecord → Option Outcome × List String
  | [] => (none, [])
  | mx :: rest =>
    match probe mx.exchange with
    | .ok r =>
      if r.status = .connection_failed then
        let t := tryMx probe rest
        (t.1, mx.exchange :: t.2)
      else
        (some r, [mx.exchange])
    | .error _ =>
      let t := tryMx probe rest
      (t.1, mx.exchange :: t.2)

/-- A host attempt that triggers failover in the loop of `verifyEmail`:
the probe threw (the `catch` with `continue`), or it fulfilled with a
`connection_failed` outcome. -/
def hostFails (probe : String → Except String Outcome) (mx : MxRecord) : Prop :=
  (∃ e, probe mx.exchange = .error e) ∨
  (∃ r, probe mx.exchange = .ok r ∧ r.status = .connection_failed)

/-- The outcome built at lines 24–29 for a syntactically invalid address. -/
def invalidFormatOutcome (email : String) : Outcome :=
  { email := email, isValid := false, status := .invalid_format,
    message := "Invalid email format" }

/-- The outcome built at lines 37–42 when no MX record exists. -/
def noMxRecordOutcome (email : String) : Outcome :=
  { email := email, isValid := false, status := .no_mx_record,
    message := "No MX record found for domain" }

/-- The outcome built at lines 58–63 when every host failed. -/
def connectionFailedOutcome (email : String) : Outcome :=
  { email := email, isValid := false, status := .connection_failed,
    message := "Could not connect to any mail server" }

/-- `verifyEmail(email)`.  Returns `(outcome, probedHosts, dnsQueried)`.
The surrounding `try/catch` (status `error`) only catches throws of the
steps modelled here, none of which throw in the embedding. -/
def verifyEmail (resolveMxResult : Except String (List MxRecord))
    (probe : String → Except String Outcome) (email : String) :
    Outcome × List String × Bool :=
  if !isValidEmailFormat email then
    (invalidFormatOutcome email, [], false)
  else
    match getMxRecords resolveMxResult with
    | none => (noMxRecordOutcome email, [], true)
    | some mxRecords =>
      if mxRecords.isEmpty then
        (noMxRecordOutcome email, [], true)
      else
        match tryMx probe mxRecords with
        | (some r, hosts) => (r, hosts, true)
        | (none, hosts) => (connectionFailedOutcome email, hosts, true)

/-! ## The advanced verifier (`advanced-email-verifier.js`)

The `AdvancedEmailVerifier` instance's mutable maps become explicit
state.  The two `Map`s are modelled as functions to `Option` (JavaScript
`Map.get` returning `undefined` is `none`); `netCalls` counts the calls
to the underlying `verifyEmail`, whose results come from the oracle
`net : Nat → Outcome` indexed by that counter. -/

/-- Configuration fields of `AdvancedEmailVerifier` /
`BulkEmailProcessor` relevant to the embedded logic. -/
structure Config where
  cacheExpiry : Nat
  maxRequestsPerDomain : Nat
  rateLimitWindow : Nat
  retryAttempts : Nat

/-- The mutable state of one `AdvancedEmailVerifier` instance. -/
structure AdvState where
  cache : String → Option (Outcome × Nat)
  rateLimiter : String → Option (List Nat)
  netCalls : Nat

/-- A state with empty cache and rate-limiter maps. -/
def emptyAdvState : AdvState :=
  { cache := fun _ => none, rateLimiter := fun _ => none, netCalls := 0 }

/-- `getFromCache(email)` at time `now`: a live entry returns its stored
result (the entry stays); an expired entry is deleted and `null` is
returned; a missing entry returns `null`. -/
def getFromCache (cfg : Config) (email : String) (now : Nat) (st : AdvState) :
    Option Outcome × AdvState :=
  match st.cache email with
  | some (result, ts) =>
    if now - ts < cfg.cacheExpiry then (some result, st)
    else (none, { st with cache := fun e => if e = email then none else st.cache e })
  | none => (none, st)

/-- `addToCache(email, result)` at time `now`: store
`{result, timestamp: now}`, overwriting any prior entry. -/
def addToCache (email : String) (result : Outcome) (now : Nat) (st : AdvState) :
    AdvState :=
  { st with cache := fun e => if e = email then some (result, now) else st.cache e }

/-- `checkRateLimit(domain)` at time `now`: fetch the domain's timestamp
list (`[]` when absent), prune entries outside the window, refuse when
the pruned count reaches `maxRequestsPerDomain` (leaving the state
untouched), otherwise append `now` and store the pruned-plus-new list. -/
def checkRateLimit (cfg : Config) (domain : String) (now : Nat) (st : AdvState) :
    Bool × AdvState :=
  let domainRequests := (st.rateLimiter domain).getD []
  let validRequests := domainRequests.filter (fun ts => now - ts < cfg.rateLimitWindow)
  if cfg.maxRequestsPerDomain ≤ validRequests.length then
    (false, st)
  else
    (true, { st with rateLimiter := fun d =>
      if d = domain then some (validRequests ++ [now]) else st.rateLimiter d })

/-- The outcome built at lines 28–33 when the domain is rate limited. -/
def rateLimitedOutcome (email : String) : Outcome :=
  { email := email, isValid := false, status := .rate_limited,
    message := "Rate limit exceeded for domain" }

/-- `verifyEmailAdvanced(email)` at time `now`: cache check (a hit is
returned as a spread copy with `fromCache: true`), then rate-limit
check, then the underlying `verifyEmail` (the oracle `net` applied to
the call counter), whose result is cached unconditionally. -/
def verifyEmailAdvanced (cfg : Config) (net : Nat → Outcome) (email : String)
    (now : Nat) (st : AdvState) : Outcome × AdvState :=
  match getFromCache cfg email now st with
  | (some cached, st1) => ({ cached with fromCache := true }, st1)
  | (none, st1) =>
    match checkRateLimit cfg (domainOf email) now st1 with
    | (false, st2) => (rateLimitedOutcome email, st2)
    | (true, st2) =>
      let result := net st2.netCalls
      let st3 := { st2 with netCalls := st2.netCalls + 1 }
      (result, addToCache email result now st3)

/-- A sequence of `checkRateLimit` calls for one domain at the given
times, collecting the returned booleans. -/
def runAcquires (cfg : Config) (domain : String) :
    List Nat → AdvState → List Bool × AdvState
  | [], st => ([], st)
  | t :: ts, st =>
    let r := checkRateLimit cfg domain t st
    let rest := runAcquires cfg domain ts r.2
    (r.1 :: rest.1, rest.2)

/-! ## Retry with backoff (`bulk-email-processor.js`, `verifyWithRetry`)

`verifyWithRetry(email, attempt)` recurses while the pipeline yields
`temporary_failure` and `attempt <= retryAttempts`, sleeping
`5000 * attempt` before each retry.  The embedding threads the verifier
state, takes the wall-clock time of each attempt from `times : Nat → Nat`
(indexed by attempt number), and records the backoff delays taken.
Termination: each recursive call increases `attempt`, bounded by
`retryAttempts`. -/

/-- The recursion of `verifyWithRetry`, made structural on the retry
budget `budget = retryAttempts + 1 - attempt`: the source's guard
`attempt <= this.retryAttempts` holds exactly when `budget ≥ 1`, and
each recursive call increments `attempt`, shrinking the budget by one. -/
def verifyWithRetryGo (cfg : Config) (net : Nat → Outcome) (times : Nat → Nat)
    (email : String) : Nat → Nat → AdvState → Outcome × AdvState × List Nat
  | attempt, 0, st =>
    let r := verifyEmailAdvanced cfg net email (times attempt) st
    (r.1, r.2, [])
  | attempt, budget + 1, st =>
    let r := verifyEmailAdvanced cfg net email (times attempt) st
    if r.1.status = .temporary_failure then
      let recd := verifyWithRetryGo cfg net times email (attempt + 1) budget r.2
      (recd.1, recd.2.1, 5000 * attempt :: recd.2.2)
    else
      (r.1, r.2, [])

/-- `verifyWithRetry(email, attempt)`: run the pipeline, and while it
yields `temporary_failure` with `attempt <= retryAttempts`, wait
`5000 * attempt` ms and recurse with `attempt + 1`.  Returns the final
outcome, the final verifier state, and the backoff delays taken, in
order. -/
def verifyWithRetry (cfg : Config) (net : Nat → Outcome) (times : Nat → Nat)
    (email : String) (attempt : Nat) (st : AdvState) :
    Outcome × AdvState × List Nat :=
  verifyWithRetryGo cfg net times email attempt (cfg.retryAttempts + 1 - attempt) st

/-! ## The batch scheduler (`processBulkEmails`, `processBatch`) -/

/-- The slicing loop, made structural on a fuel that starts at the
list's length (each step consumes at least the head, so the fuel never
runs out). -/
def chunksOfGo (size : Nat) : Nat → List α → List (List α)
  | _, [] => []
  | 0, _ :: _ => []
  | fuel + 1, x :: xs => (x :: xs.take (size - 1)) :: chunksOfGo size fuel (xs.drop (size - 1))

/-- Consecutive slices of size `size` (`emails.slice(i, i + size)` with
`i` stepping by `size`).  For `size ≥ 1` this is exactly the source's
slicing; `size = 0` would not terminate in the source. -/
def chunksOf (size : Nat) (l : List α) : List (List α) :=
  chunksOfGo size l.length l

/-- The settled result of one `verifyWithRetry` promise inside
`processBatch`: a fulfilled value is kept, a rejection becomes an
`error` outcome for that address (lines 103–112). -/
def settledResult (f : String → Except String Outcome) (email : String) : Outcome :=
  match f email with
  | .ok v => v
  | .error msg => { email := email, isValid := false, status := .error, message := msg }

/-- `processBatch(emails)`: partition into concurrency groups, settle
each group, and append the settled results in group order and, within a
group, in position order. -/
def processBatch (f : String → Except String Outcome) (concurrency : Nat)
    (emails : List String) : List Outcome :=
  ((chunksOf concurrency emails).map (List.map (settledResult f))).flatten

/-- The substitute outcome built at lines 65–70 when a whole batch
throws. -/
def batchErrorOutcome (msg : String) (email : String) : Outcome :=
  { email := email, isValid := false, status := .batch_error,
    message := "Batch processing failed: " ++ msg }

/-- The batch loop of `processBulkEmails`: the `batchThrows` oracle says
whether processing batch number `i` throws (`some msg`); a throwing
batch is replaced by `batch_error` outcomes for each of its addresses
and the loop continues. -/
def bulkGo (f : String → Except String Outcome) (concurrency : Nat)
    (batchThrows : Nat → Option String) :
    List (List String) → Nat → List Outcome
  | [], _ => []
  | batch :: rest, i =>
    (match batchThrows i with
     | some msg => batch.map (batchErrorOutcome msg)
     | none => processBatch f concurrency batch) ++ bulkGo f concurrency batchThrows rest (i + 1)

/-- `processBulkEmails(emails)`. -/
def processBulkEmails (f : String → Except String Outcome) (batchSize concurrency : Nat)
    (batchThrows : Nat → Option String) (emails : List String) : List Outcome :=
  bulkGo f concurrency batchThrows (chunksOf batchSize emails) 0

/-- Modelled from the spec (§4.6, §8): the outcome the Scheduler must
report at position `i` — computed from input address `i` alone and the
fate of its batch (batch number `i / batchSize`).  This is the reference
definition the scheduler's output is compared against. -/
def expectedOutcomeAt (f : String → Except String Outcome) (batchSize : Nat)
    (batchThrows : Nat → Option String) (emails : List String) (i : Nat)
    (h : i < emails.length) : Outcome :=
  let e := emails.get ⟨i, h⟩
  match batchThrows (i / batchSize) with
  | some msg => batchErrorOutcome msg e
  | none => settledResult f e

/-! # Theorems -/

/-! ## Session settlement (claim C1) -/

theorem applySignal_of_resolved {st : SessionState} (h : st.isResolved = true)
    (s : SettleSignal) : applySignal st s = st := by
  cases s <;> simp [applySignal, resolveOnce, rejectOnce, h]

theorem foldl_applySignal_of_resolved {st : SessionState} (h : st.isResolved = true) :
    ∀ sigs : List SettleSignal, sigs.foldl applySignal st = st := by
  intro sigs
  induction sigs with
  | nil => rfl
  | cons a rest ih => rw [List.foldl_cons, applySignal_of_resolved h, ih]

theorem applySignal_init (s : SettleSignal) :
    applySignal initSession s =
      { isResolved := true, socketDestroyed := true, settled := some (settlementOf s) } := by
  cases s <;> rfl

/-- C1: for every probe session, whichever of the four settlement
sources (classified SMTP reply, socket error, timeout expiry, unexpected
close) fire and in whatever order, the session settles exactly once: the
final state is the one produced by the first signal alone, it is
resolved with that signal's settlement, the socket is destroyed on the
settling path, and any further settlement attempt leaves the state
unchanged. -/
theorem probe_session_settles_exactly_once (sigs : List SettleSignal) (h : sigs ≠ []) :
    runSignals sigs = applySignal initSession (sigs.head h) ∧
    (runSignals sigs).isResolved = true ∧
    (runSignals sigs).socketDestroyed = true ∧
    (runSignals sigs).settled = some (settlementOf (sigs.head h)) ∧
    ∀ later : SettleSignal, applySignal (runSignals sigs) later = runSignals sigs := by
  match sigs with
  | a :: rest =>
    have h1 : runSignals (a :: rest) = applySignal initSession a := by
      show (a :: rest).foldl applySignal initSession = _
      rw [List.foldl_cons]
      exact foldl_applySignal_of_resolved (by rw [applySignal_init]) rest
    refine ⟨h1, ?_, ?_, ?_, ?_⟩
    · rw [h1, applySignal_init]
    · rw [h1, applySignal_init]
    · simp [h1, applySignal_init]
    · intro later
      exact applySignal_of_resolved (by rw [h1, applySignal_init]) later

/-- Witness for C1 at a concrete race: a timer expiry immediately
followed by the connection-close event. -/
theorem probe_session_settles_exactly_once_witness :
    ([SettleSignal.timerTimeout, SettleSignal.socketClose] ≠ ([] : List SettleSignal)) ∧
    (runSignals [SettleSignal.timerTimeout, SettleSignal.socketClose]).settled =
      some (Settlement.rejected "Connection timeout") ∧
    (runSignals [SettleSignal.timerTimeout, SettleSignal.socketClose]).socketDestroyed = true :=
  ⟨by decide,
   (probe_session_settles_exactly_once
     [SettleSignal.timerTimeout, SettleSignal.socketClose] (by decide)).2.2.2.1,
   (probe_session_settles_exactly_once
     [SettleSignal.timerTimeout, SettleSignal.socketClose] (by decide)).2.2.1⟩

/-! ## RCPT reply handling (claim C2) -/

/-- C2: in the `rcpt_to` step the handler always sends `QUIT` first and
then settles the session with an outcome classified by reply code
(`250` → `valid`/isValid, 5xx → `invalid`, 4xx → `temporary_failure`,
anything else → `unknown_response`), the raw line carried as
`smtpResponse`. -/
theorem rcpt_reply_sends_quit_and_classifies
    (localHostname fromEmail email line : String) :
    ∃ o : Outcome,
      handleSmtpResponse localHostname fromEmail email .rcpt_to line =
        [Action.send "QUIT", .settle o] ∧
      o.smtpResponse = some line ∧
      o.email = email ∧
      (o.isValid = true ↔ parseCode line = some 250) ∧
      o.status =
        (match parseCode line with
         | some c =>
           if c = 250 then Status.valid
           else if 500 ≤ c ∧ c ≤ 599 then Status.invalid
           else if 400 ≤ c ∧ c ≤ 499 then Status.temporary_failure
           else Status.unknown_response
         | none => Status.unknown_response) := by
  cases h : parseCode line with
  | none =>
    refine ⟨{ email := email, isValid := false, status := .unknown_response,
              message := "Unknown response: " ++ line, smtpResponse := some line },
            ?_, rfl, rfl, ?_, ?_⟩
    · simp [handleSmtpResponse, h]
    · simp [h]
    · simp [h]
  | some c =>
    by_cases h250 : c = 250
    · subst h250
      refine ⟨{ email := email, isValid := true, status := .valid,
                message := "Email address is valid", smtpResponse := some line },
              ?_, rfl, rfl, ?_, ?_⟩
      · simp [handleSmtpResponse, h]
      · simp [h]
      · simp [h]
    · by_cases h5 : 500 ≤ c ∧ c ≤ 599
      · refine ⟨{ email := email, isValid := false, status := .invalid,
                  message := "Email address rejected: " ++ line, smtpResponse := some line },
                ?_, rfl, rfl, ?_, ?_⟩
        · simp [handleSmtpResponse, h, h250, h5]
        · simp [h, h250]
        · simp [h, h250, h5]
      · by_cases h4 : 400 ≤ c ∧ c ≤ 499
        · refine ⟨{ email := email, isValid := false, status := .temporary_failure,
                    message := "Temporary failure: " ++ line, smtpResponse := some line },
                  ?_, rfl, rfl, ?_, ?_⟩
          · simp [handleSmtpResponse, h, h250, h5, h4]
          · simp [h, h250]
          · simp [h, h250, h5, h4]
        · refine ⟨{ email := email, isValid := false, status := .unknown_response,
                    message := "Unknown response: " ++ line, smtpResponse := some line },
                  ?_, rfl, rfl, ?_, ?_⟩
          · simp [handleSmtpResponse, h, h250, h5, h4]
          · simp [h, h250]
          · simp [h, h250, h5, h4]

/-! ## The orchestrator pipeline (claim C3) -/

theorem insertMx_mem (x : MxRecord) : ∀ (l : List MxRecord) (a : MxRecord),
    a ∈ insertMx x l ↔ a = x ∨ a ∈ l := by
  intro l
  induction l with
  | nil => intro a; simp [insertMx]
  | cons y ys ih =>
    intro a
    by_cases hx : x.priority ≤ y.priority
    · simp only [insertMx, if_pos hx, List.mem_cons]
    · simp only [insertMx, if_neg hx, List.mem_cons, ih]
      tauto

theorem insertMx_pairwise (x : MxRecord) : ∀ {l : List MxRecord},
    l.Pairwise (fun a b => a.priority ≤ b.priority) →
    (insertMx x l).Pairwise (fun a b => a.priority ≤ b.priority) := by
  intro l
  induction l with
  | nil => intro _; simp [insertMx]
  | cons y ys ih =>
    intro hp
    rw [List.pairwise_cons] at hp
    obtain ⟨hy, hys⟩ := hp
    by_cases hx : x.priority ≤ y.priority
    · simp only [insertMx, if_pos hx]
      refine List.Pairwise.cons ?_ (List.Pairwise.cons hy hys)
      intro b hb
      rcases List.mem_cons.1 hb with rfl | hbys
      · exact hx
      · exact le_trans hx (hy b hbys)
    · simp only [insertMx, if_neg hx]
      refine List.Pairwise.cons ?_ (ih hys)
      intro b hb
      rcases (insertMx_mem x ys b).1 hb with rfl | hbys
      · omega
      · exact hy b hbys

theorem sortMx_pairwise : ∀ l : List MxRecord,
    (sortMx l).Pairwise (fun a b => a.priority ≤ b.priority) := by
  intro l
  induction l with
  | nil => simp [sortMx]
  | cons x xs ih => exact insertMx_pairwise x ih

theorem tryMx_ok (probe : String → Except String Outcome) :
    ∀ (l : List MxRecord) (r : Outcome) (hosts : List String),
    tryMx probe l = (some r, hosts) →
    ∃ k mx, l[k]? = some mx ∧ probe mx.exchange = .ok r ∧
      r.status ≠ .connection_failed ∧
      (∀ j, j < k → ∀ mx', l[j]? = some mx' → hostFails probe mx') ∧
      hosts = (l.take (k + 1)).map (·.exchange) := by
  intro l
  induction l with
  | nil => intro r hosts h; simp [tryMx] at h
  | cons mx rest ih =>
    intro r hosts h
    cases hp : probe mx.exchange with
    | ok r0 =>
      simp only [tryMx, hp] at h
      by_cases hcf : r0.status = .connection_failed
      · rw [if_pos hcf] at h
        cases ht : tryMx probe rest with
        | mk o hs =>
          rw [ht] at h
          cases o with
          | none => simp at h
          | some r1 =>
            simp only [Prod.mk.injEq, Option.some.injEq] at h
            obtain ⟨rfl, rfl⟩ := h
            obtain ⟨k, mx', hk, hpk, hst, hbefore, hhosts⟩ := ih r1 hs ht
            refine ⟨k + 1, mx', by simpa using hk, hpk, hst, ?_, ?_⟩
            · intro j hj mx'' hmx''
              cases j with
              | zero =>
                simp at hmx''
                subst hmx''
                exact Or.inr ⟨r0, hp, hcf⟩
              | succ j' =>
                have : j' < k := by omega
                exact hbefore j' this mx'' (by simpa using hmx'')
            · simp [List.take, hhosts]
      · rw [if_neg hcf] at h
        simp only [Prod.mk.injEq, Option.some.injEq] at h
        obtain ⟨rfl, rfl⟩ := h
        refine ⟨0, mx, by simp, hp, hcf, ?_, by simp⟩
        intro j hj mx' _
        exact absurd hj (Nat.not_lt_zero j)
    | error e =>
      simp only [tryMx, hp] at h
      cases ht : tryMx probe rest with
      | mk o hs =>
        rw [ht] at h
        cases o with
        | none => simp at h
        | some r1 =>
          simp only [Prod.mk.injEq, Option.some.injEq] at h
          obtain ⟨rfl, rfl⟩ := h
          obtain ⟨k, mx', hk, hpk, hst, hbefore, hhosts⟩ := ih r1 hs ht
          refine ⟨k + 1, mx', by simpa using hk, hpk, hst, ?_, ?_⟩
          · intro j hj mx'' hmx''
            cases j with
            | zero =>
              simp at hmx''
              subst hmx''
              exact Or.inl ⟨e, hp⟩
            | succ j' =>
              have : j' < k := by omega
              exact hbefore j' this mx'' (by simpa using hmx'')
          · simp [List.take, hhosts]

theorem tryMx_none (probe : String → Except String Outcome) :
    ∀ (l : List MxRecord) (hosts : List String),
    tryMx probe l = (none, hosts) →
    (∀ mx ∈ l, hostFails probe mx) ∧ hosts = l.map (·.exchange) := by
  intro l
  induction l with
  | nil => intro hosts h; simp [tryMx] at h; simp [h]
  | cons mx rest ih =>
    intro hosts h
    cases hp : probe mx.exchange with
    | ok r0 =>
      simp only [tryMx, hp] at h
      by_cases hcf : r0.status = .connection_failed
      · rw [if_pos hcf] at h
        cases ht : tryMx probe rest with
        | mk o hs =>
          rw [ht] at h
          cases o with
          | some r1 => simp at h
          | none =>
            simp only [Prod.mk.injEq] at h
            obtain ⟨-, rfl⟩ := h
            obtain ⟨hall, rfl⟩ := ih hs ht
            refine ⟨?_, by simp⟩
            intro m hm
            rcases List.mem_cons.1 hm with rfl | hmrest
            · exact Or.inr ⟨r0, hp, hcf⟩
            · exact hall m hmrest
      · rw [if_neg hcf] at h
        simp at h
    | error e =>
      simp only [tryMx, hp] at h
      cases ht : tryMx probe rest with
      | mk o hs =>
        rw [ht] at h
        cases o with
        | some r1 => simp at h
        | none =>
          simp only [Prod.mk.injEq] at h
          obtain ⟨-, rfl⟩ := h
          obtain ⟨hall, rfl⟩ := ih hs ht
          refine ⟨?_, by simp⟩
          intro m hm
          rcases List.mem_cons.1 hm with rfl | hmrest
          · exact Or.inl ⟨e, hp⟩
          · exact hall m hmrest

theorem tryMx_hosts_initial_segment (probe : String → Except String Outcome) :
    ∀ l : List MxRecord, ∃ n, (tryMx probe l).2 = (l.take n).map (·.exchange) := by
  intro l
  induction l with
  | nil => exact ⟨0, rfl⟩
  | cons mx rest ih =>
    cases hp : probe mx.exchange with
    | ok r0 =>
      by_cases hcf : r0.status = .connection_failed
      · obtain ⟨n, hn⟩ := ih
        exact ⟨n + 1, by simp [tryMx, hp, hcf, List.take, hn]⟩
      · exact ⟨1, by simp [tryMx, hp, hcf]⟩
    | error e =>
      obtain ⟨n, hn⟩ := ih
      exact ⟨n + 1, by simp [tryMx, hp, List.take, hn]⟩

/-- C3: `verifyEmail` proceeds in order: a syntactically invalid address
is `invalid_format` with no DNS query and no probed host; with valid
syntax, a failed MX lookup or an empty (sorted) record list is
`no_mx_record`; otherwise the hosts are probed in ascending priority
order (the sorted list is priority-sorted and the probed hosts are an
initial segment of it), the first host fulfilling with a status other
than `connection_failed` supplies the outcome, and if every host fails
the outcome is `connection_failed`. -/
theorem verify_email_pipeline (resolveMxResult : Except String (List MxRecord))
    (probe : String → Except String Outcome) (email : String) :
    (isValidEmailFormat email = false →
      verifyEmail resolveMxResult probe email = (invalidFormatOutcome email, [], false)) ∧
    (isValidEmailFormat email = true →
      (∀ err, resolveMxResult = .error err →
        verifyEmail resolveMxResult probe email = (noMxRecordOutcome email, [], true)) ∧
      (∀ records, resolveMxResult = .ok records →
        (sortMx records = [] →
          verifyEmail resolveMxResult probe email = (noMxRecordOutcome email, [], true)) ∧
        (sortMx records ≠ [] →
          (sortMx records).Pairwise (fun a b => a.priority ≤ b.priority) ∧
          (∃ n, (verifyEmail resolveMxResult probe email).2.1 =
            ((sortMx records).take n).map (·.exchange)) ∧
          ((∃ (k : Nat) (mxr : MxRecord), (sortMx records)[k]? = some mxr ∧
              (∀ j, j < k → ∀ mx', (sortMx records)[j]? = some mx' → hostFails probe mx') ∧
              ∃ r, probe mxr.exchange = .ok r ∧ r.status ≠ .connection_failed ∧
                (verifyEmail resolveMxResult probe email).1 = r) ∨
           ((∀ mx ∈ sortMx records, hostFails probe mx) ∧
            (verifyEmail resolveMxResult probe email).1 = connectionFailedOutcome email))))) := by
  constructor
  · intro hfmt
    simp [verifyEmail, hfmt]
  · intro hfmt
    constructor
    · intro err herr
      subst herr
      simp [verifyEmail, hfmt, getMxRecords]
    · intro records hrec
      subst hrec
      constructor
      · intro hempty
        simp [verifyEmail, hfmt, getMxRecords, hempty]
      · intro hne
        have hie : (sortMx records).isEmpty = false := by
          cases h' : sortMx records with
          | nil => exact absurd h' hne
          | cons a as => rfl
        have hve : verifyEmail (Except.ok records) probe email =
            (match tryMx probe (sortMx records) with
             | (some r, hosts) => (r, hosts, true)
             | (none, hosts) => (connectionFailedOutcome email, hosts, true)) := by
          simp [verifyEmail, hfmt, getMxRecords, hie]
        refine ⟨sortMx_pairwise records, ?_, ?_⟩
        · cases ht : tryMx probe (sortMx records) with
          | mk o hs =>
            obtain ⟨n, hn⟩ := tryMx_hosts_initial_segment probe (sortMx records)
            rw [ht] at hn
            cases o with
            | some r => exact ⟨n, by rw [hve, ht]; exact hn⟩
            | none => exact ⟨n, by rw [hve, ht]; exact hn⟩
        · cases ht : tryMx probe (sortMx records) with
          | mk o hs =>
            cases o with
            | some r =>
              obtain ⟨k, mxr, hk, hpk, hst, hbefore, -⟩ :=
                tryMx_ok probe (sortMx records) r hs ht
              exact Or.inl ⟨k, mxr, hk, hbefore, r, hpk, hst, by rw [hve, ht]⟩
            | none =>
              obtain ⟨hall, -⟩ := tryMx_none probe (sortMx records) hs ht
              exact Or.inr ⟨hall, by rw [hve, ht]⟩

/-- Witness for C3: a malformed address short-circuits with no DNS or
network access, and a failing MX lookup on a well-formed address is
terminal `no_mx_record`. -/
theorem verify_email_pipeline_witness :
    verifyEmail (Except.ok []) (fun _ => Except.error "net") "not-an-email" =
      (invalidFormatOutcome "not-an-email", [], false) ∧
    verifyEmail (Except.error "dns down") (fun _ => Except.error "net") "a@b.c" =
      (noMxRecordOutcome "a@b.c", [], true) :=
  ⟨(verify_email_pipeline (Except.ok []) (fun _ => Except.error "net") "not-an-email").1
     (by decide),
   ((verify_email_pipeline (Except.error "dns down") (fun _ => Except.error "net") "a@b.c").2
     (by decide)).1 "dns down" rfl⟩

/-! ## Cache reads and TTL (claim C5) -/

/-- C5: with a cache entry `(r, ts)` for an address, a read at `now`
with `now - ts < ttl` returns a copy of `r` whose only changed field is
`fromCache = true`, leaving the state untouched; a read with
`now - ts ≥ ttl` evicts the entry, reports it absent, and the pipeline
continues exactly as it would from the evicted state (a fresh
verification). -/
theorem cache_read_ttl (cfg : Config) (net : Nat → Outcome) (email : String)
    (now : Nat) (st : AdvState) (r : Outcome) (ts : Nat)
    (hentry : st.cache email = some (r, ts)) :
    (now - ts < cfg.cacheExpiry →
      (verifyEmailAdvanced cfg net email now st).1.fromCache = true ∧
      (verifyEmailAdvanced cfg net email now st).1.email = r.email ∧
      (verifyEmailAdvanced cfg net email now st).1.isValid = r.isValid ∧
      (verifyEmailAdvanced cfg net email now st).1.status = r.status ∧
      (verifyEmailAdvanced cfg net email now st).1.message = r.message ∧
      (verifyEmailAdvanced cfg net email now st).1.smtpResponse = r.smtpResponse ∧
      (verifyEmailAdvanced cfg net email now st).2 = st) ∧
    (cfg.cacheExpiry ≤ now - ts →
      (getFromCache cfg email now st).1 = none ∧
      ((getFromCache cfg email now st).2).cache email = none ∧
      verifyEmailAdvanced cfg net email now st =
        verifyEmailAdvanced cfg net email now ((getFromCache cfg email now st).2)) := by
  constructor
  · intro hfresh
    have hget : getFromCache cfg email now st = (some r, st) := by
      simp [getFromCache, hentry, hfresh]
    simp [verifyEmailAdvanced, hget]
  · intro hexp
    have hlt : ¬(now - ts < cfg.cacheExpiry) := by omega
    have hget : getFromCache cfg email now st =
        (none, { st with cache := fun e => if e = email then none else st.cache e }) := by
      simp [getFromCache, hentry, hlt]
    refine ⟨by rw [hget], by rw [hget]; simp, ?_⟩
    rw [hget]
    have hget2 : getFromCache cfg email now
        { st with cache := fun e => if e = email then none else st.cache e } =
        (none, { st with cache := fun e => if e = email then none else st.cache e }) := by
      simp [getFromCache]
    rw [verifyEmailAdvanced, verifyEmailAdvanced, hget, hget2]

/-- Witness for C5: a concrete entry cached at time 50 with TTL 100,
read fresh at time 60 and expired at time 200. -/
theorem cache_read_ttl_witness :
    ((verifyEmailAdvanced ⟨100, 10, 60000, 2⟩ (fun _ => rateLimitedOutcome "n")
        "a@b.c" 60
        { cache := fun e => if e = "a@b.c" then some (connectionFailedOutcome "a@b.c", 50) else none,
          rateLimiter := fun _ => none, netCalls := 0 }).1.fromCache = true) ∧
    ((getFromCache ⟨100, 10, 60000, 2⟩ "a@b.c" 200
        { cache := fun e => if e = "a@b.c" then some (connectionFailedOutcome "a@b.c", 50) else none,
          rateLimiter := fun _ => none, netCalls := 0 }).1 = none) :=
  ⟨((cache_read_ttl ⟨100, 10, 60000, 2⟩ (fun _ => rateLimitedOutcome "n") "a@b.c" 60
      { cache := fun e => if e = "a@b.c" then some (connectionFailedOutcome "a@b.c", 50) else none,
        rateLimiter := fun _ => none, netCalls := 0 }
      (connectionFailedOutcome "a@b.c") 50 (by simp)).1 (by decide)).1,
   ((cache_read_ttl ⟨100, 10, 60000, 2⟩ (fun _ => rateLimitedOutcome "n") "a@b.c" 200
      { cache := fun e => if e = "a@b.c" then some (connectionFailedOutcome "a@b.c", 50) else none,
        rateLimiter := fun _ => none, netCalls := 0 }
      (connectionFailedOutcome "a@b.c") 50 (by simp)).2 (by decide)).1⟩

/-! ## The sliding-window rate limiter (claim C6) -/

theorem runAcquires_spec (cfg : Config) (domain : String) :
    ∀ (ts : List Nat) (st : AdvState) (l : List Nat),
    (st.rateLimiter domain).getD [] = l →
    (∀ x ∈ l, ∀ t ∈ ts, t - x < cfg.rateLimitWindow) →
    (∀ a ∈ ts, ∀ b ∈ ts, b - a < cfg.rateLimitWindow) →
    (runAcquires cfg domain ts st).1 =
      List.replicate (min ts.length (cfg.maxRequestsPerDomain - l.length)) true ++
      List.replicate (ts.length - (cfg.maxRequestsPerDomain - l.length)) false ∧
    (((runAcquires cfg domain ts st).2).rateLimiter domain).getD [] =
      l ++ ts.take (cfg.maxRequestsPerDomain - l.length) := by
  intro ts
  induction ts with
  | nil =>
    intro st l hst h1 h2
    simp [runAcquires, hst]
  | cons t ts' ih =>
    intro st l hst h1 h2
    have hfilter : l.filter (fun x => decide (t - x < cfg.rateLimitWindow)) = l := by
      rw [List.filter_eq_self]
      intro x hx
      exact decide_eq_true (h1 x hx t (by simp))
    by_cases hge : cfg.maxRequestsPerDomain ≤ l.length
    · have hc : checkRateLimit cfg domain t st = (false, st) := by
        simp only [checkRateLimit, hst, hfilter]
        rw [if_pos hge]
      obtain ⟨hres, hstore⟩ := ih st l hst
        (fun x hx t' ht' => h1 x hx t' (by simp [ht']))
        (fun a ha b hb => h2 a (by simp [ha]) b (by simp [hb]))
      have hbud : cfg.maxRequestsPerDomain - l.length = 0 := by omega
      constructor
      · simp only [runAcquires, hc]
        rw [hbud] at hres
        simp [hres, hbud, List.replicate_succ]
      · simp only [runAcquires, hc]
        simpa [hbud] using hstore
    · push_neg at hge
      have hc : checkRateLimit cfg domain t st =
          (true, { st with rateLimiter := fun d =>
            if d = domain then some (l ++ [t]) else st.rateLimiter d }) := by
        simp only [checkRateLimit, hst, hfilter]
        rw [if_neg (by omega)]
      have hst'l : ((({ st with rateLimiter := fun d =>
          if d = domain then some (l ++ [t]) else st.rateLimiter d } : AdvState)).rateLimiter
            domain).getD [] = l ++ [t] := by simp
      have h1' : ∀ x ∈ l ++ [t], ∀ t' ∈ ts', t' - x < cfg.rateLimitWindow := by
        intro x hx t' ht'
        rcases List.mem_append.1 hx with hxl | hxt
        · exact h1 x hxl t' (by simp [ht'])
        · simp at hxt
          subst hxt
          exact h2 x (by simp) t' (by simp [ht'])
      have h2' : ∀ a ∈ ts', ∀ b ∈ ts', b - a < cfg.rateLimitWindow :=
        fun a ha b hb => h2 a (by simp [ha]) b (by simp [hb])
      obtain ⟨hres, hstore⟩ := ih _ (l ++ [t]) hst'l h1' h2'
      obtain ⟨b', hb'⟩ : ∃ b', cfg.maxRequestsPerDomain - l.length = b' + 1 :=
        ⟨cfg.maxRequestsPerDomain - l.length - 1, by omega⟩
      have hbud' : cfg.maxRequestsPerDomain - (l ++ [t]).length = b' := by
        simp only [List.length_append, List.length_cons, List.length_nil]
        omega
      constructor
      · simp only [runAcquires, hc]
        rw [hbud'] at hres
        have hmin : min (t :: ts').length (cfg.maxRequestsPerDomain - l.length) =
            min ts'.length b' + 1 := by
          simp only [List.length_cons, hb']
          omega
        have hsub : (t :: ts').length - (cfg.maxRequestsPerDomain - l.length) =
            ts'.length - b' := by
          simp only [List.length_cons, hb']
          omega
        rw [hmin, hsub, List.replicate_succ]
        simp [hres]
      · simp only [runAcquires, hc]
        rw [hbud'] at hstore
        rw [hb', List.take_succ_cons]
        simp only [hstore]
        simp

/-- C6: the rate limiter admits exactly `maxPerWindow` acquisitions per
domain inside one window: starting from a domain with no recorded
timestamps, a sequence of calls whose times all lie within one
`windowDuration` of each other yields `min n max` successes followed by
failures only; any refused call leaves the state untouched (no timestamp
recorded); and once the window has fully elapsed past every recorded
timestamp, an acquisition succeeds again (for a positive ceiling). -/
theorem rate_limiter_exact_window (cfg : Config) (domain : String)
    (ts : List Nat) (st : AdvState)
    (hfresh : st.rateLimiter domain = none)
    (hpair : ∀ a ∈ ts, ∀ b ∈ ts, b - a < cfg.rateLimitWindow) :
    (runAcquires cfg domain ts st).1 =
      List.replicate (min ts.length cfg.maxRequestsPerDomain) true ++
      List.replicate (ts.length - cfg.maxRequestsPerDomain) false ∧
    (∀ (now : Nat) (st' : AdvState), (checkRateLimit cfg domain now st').1 = false →
      (checkRateLimit cfg domain now st').2 = st') ∧
    (∀ (now' : Nat) (st'' : AdvState),
      (∀ x ∈ (st''.rateLimiter domain).getD [], cfg.rateLimitWindow ≤ now' - x) →
      1 ≤ cfg.maxRequestsPerDomain →
      (checkRateLimit cfg domain now' st'').1 = true) := by
  refine ⟨?_, ?_, ?_⟩
  · have h := runAcquires_spec cfg domain ts st [] (by simp [hfresh])
      (by intro x hx; simp at hx) hpair
    simpa using h.1
  · intro now st' hfalse
    by_cases h : cfg.maxRequestsPerDomain ≤
        (((st'.rateLimiter domain).getD []).filter
          (fun x => decide (now - x < cfg.rateLimitWindow))).length
    · simp only [checkRateLimit]
      rw [if_pos h]
    · simp only [checkRateLimit] at hfalse
      rw [if_neg h] at hfalse
      simp at hfalse
  · intro now' st'' hold hmax
    have hnil : ((st''.rateLimiter domain).getD []).filter
        (fun x => decide (now' - x < cfg.rateLimitWindow)) = [] := by
      rw [List.filter_eq_nil_iff]
      intro x hx
      simp only [decide_eq_true_eq]
      have := hold x hx
      omega
    simp only [checkRateLimit, hnil]
    rw [if_neg (by simp; omega)]

/-- Witness for C6: ceiling 2, window 10, four calls at times 0,1,2,3 —
the first two succeed and the last two fail — and a call at time 12
(past the window of both recorded timestamps) succeeds again. -/
theorem rate_limiter_exact_window_witness :
    (runAcquires ⟨3600000, 2, 10, 2⟩ "b.c" [0, 1, 2, 3] emptyAdvState).1 =
      List.replicate (min 4 2) true ++ List.replicate (4 - 2) false ∧
    (checkRateLimit ⟨3600000, 2, 10, 2⟩ "b.c" 12
      (runAcquires ⟨3600000, 2, 10, 2⟩ "b.c" [0, 1, 2, 3] emptyAdvState).2).1 = true :=
  ⟨(rate_limiter_exact_window ⟨3600000, 2, 10, 2⟩ "b.c" [0, 1, 2, 3] emptyAdvState
      rfl (by decide)).1,
   (rate_limiter_exact_window ⟨3600000, 2, 10, 2⟩ "b.c" [0, 1, 2, 3] emptyAdvState
      rfl (by decide)).2.2 12
      (runAcquires ⟨3600000, 2, 10, 2⟩ "b.c" [0, 1, 2, 3] emptyAdvState).2
      (by decide) (by decide)⟩

/-! ## The per-address pipeline and retry policy (claims C7, C4, C10) -/

theorem checkRateLimit_preserves (cfg : Config) (d : String) (now : Nat) (st : AdvState) :
    (checkRateLimit cfg d now st).2.netCalls = st.netCalls ∧
    (checkRateLimit cfg d now st).2.cache = st.cache := by
  simp only [checkRateLimit]
  split
  · exact ⟨rfl, rfl⟩
  · exact ⟨rfl, rfl⟩

/-- A cache hit returns the stored outcome marked `fromCache` and leaves
the state untouched. -/
theorem verifyEmailAdvanced_hit (cfg : Config) (net : Nat → Outcome) (email : String)
    (now : Nat) (st : AdvState) (res : Outcome) (t0 : Nat)
    (hentry : st.cache email = some (res, t0)) (hfresh : now - t0 < cfg.cacheExpiry) :
    verifyEmailAdvanced cfg net email now st = ({ res with fromCache := true }, st) := by
  have hget : getFromCache cfg email now st = (some res, st) := by
    simp [getFromCache, hentry, hfresh]
  simp [verifyEmailAdvanced, hget]

/-- On a cache miss that passes the rate limit, the pipeline runs the
underlying verifier once, returns its outcome unchanged, and stores it
in the cache whatever its status. -/
theorem verifyEmailAdvanced_miss_admitted (cfg : Config) (net : Nat → Outcome)
    (email : String) (now : Nat) (st : AdvState)
    (hcache : st.cache email = none)
    (hrate : (checkRateLimit cfg (domainOf email) now st).1 = true) :
    (verifyEmailAdvanced cfg net email now st).1 = net st.netCalls ∧
    ((verifyEmailAdvanced cfg net email now st).2).cache email =
      some (net st.netCalls, now) ∧
    ((verifyEmailAdvanced cfg net email now st).2).netCalls = st.netCalls + 1 := by
  have hget : getFromCache cfg email now st = (none, st) := by
    simp [getFromCache, hcache]
  cases hcrl : checkRateLimit cfg (domainOf email) now st with
  | mk flag st2 =>
    have hflag : flag = true := by rw [hcrl] at hrate; exact hrate
    subst hflag
    have hpres : st2.netCalls = st.netCalls := by
      have h := checkRateLimit_preserves cfg (domainOf email) now st
      rw [hcrl] at h
      exact h.1
    simp only [verifyEmailAdvanced, hget, hcrl]
    refine ⟨by rw [hpres], ?_, ?_⟩
    · simp [addToCache, hpres]
    · simp [addToCache, hpres]

/-- While the cache holds a live `temporary_failure` entry, every pass
of the retry loop is a cache hit: the loop runs through its whole
budget, returns the cached outcome marked `fromCache`, touches no state,
and records the backoff delays `5000 * attempt` in attempt order. -/
theorem verifyWithRetryGo_cached (cfg : Config) (net : Nat → Outcome)
    (times : Nat → Nat) (email : String) (res : Outcome) (t0 : Nat)
    (hst : res.status = .temporary_failure) :
    ∀ (budget attempt : Nat) (st : AdvState),
    st.cache email = some (res, t0) →
    (∀ k, times k - t0 < cfg.cacheExpiry) →
    verifyWithRetryGo cfg net times email attempt budget st =
      ({ res with fromCache := true }, st,
       (List.range' attempt budget).map (fun a => 5000 * a)) := by
  intro budget
  induction budget with
  | zero =>
    intro attempt st hentry htimes
    simp [verifyWithRetryGo,
      verifyEmailAdvanced_hit cfg net email (times attempt) st res t0 hentry (htimes attempt)]
  | succ b ih =>
    intro attempt st hentry htimes
    have hhit := verifyEmailAdvanced_hit cfg net email (times attempt) st res t0 hentry
      (htimes attempt)
    simp only [verifyWithRetryGo, hhit]
    rw [if_pos (show ({ res with fromCache := true } : Outcome).status = .temporary_failure
      from hst)]
    rw [ih (attempt + 1) st hentry htimes]
    simp [List.range']

/-- The number of retries never exceeds the remaining budget. -/
theorem verifyWithRetryGo_delays_le (cfg : Config) (net : Nat → Outcome)
    (times : Nat → Nat) (email : String) :
    ∀ (budget attempt : Nat) (st : AdvState),
    (verifyWithRetryGo cfg net times email attempt budget st).2.2.length ≤ budget := by
  intro budget
  induction budget with
  | zero => intro attempt st; simp [verifyWithRetryGo]
  | succ b ih =>
    intro attempt st
    simp only [verifyWithRetryGo]
    split
    · simpa using ih (attempt + 1) _
    · simp

/-- C7: an address whose fresh probe yields `temporary_failure` (cache
miss, rate limit passed) is retried at most `retryAttempts` times — here
exactly `retryAttempts` times, each a cache hit on the stored transient
outcome — with strictly increasing backoff delays `5000 * attempt`, and
the outcome reported after the budget is exhausted still has status
`temporary_failure`. -/
theorem temporary_failure_retry_policy (cfg : Config) (net : Nat → Outcome)
    (times : Nat → Nat) (email : String) (st : AdvState)
    (hcache : st.cache email = none)
    (hrate : (checkRateLimit cfg (domainOf email) (times 1) st).1 = true)
    (hnet : (net st.netCalls).status = .temporary_failure)
    (htimes : ∀ k, times k - times 1 < cfg.cacheExpiry) :
    (∀ st' : AdvState,
      (verifyWithRetry cfg net times email 1 st').2.2.length ≤ cfg.retryAttempts) ∧
    (verifyWithRetry cfg net times email 1 st).2.2 =
      (List.range' 1 cfg.retryAttempts).map (fun a => 5000 * a) ∧
    (verifyWithRetry cfg net times email 1 st).2.2.length = cfg.retryAttempts ∧
    List.Pairwise (fun a b => a < b) (verifyWithRetry cfg net times email 1 st).2.2 ∧
    (verifyWithRetry cfg net times email 1 st).1.status = .temporary_failure := by
  have hbudget : cfg.retryAttempts + 1 - 1 = cfg.retryAttempts := by omega
  have hdelays : (verifyWithRetry cfg net times email 1 st).2.2 =
      (List.range' 1 cfg.retryAttempts).map (fun a => 5000 * a) ∧
      (verifyWithRetry cfg net times email 1 st).1.status = .temporary_failure := by
    rw [verifyWithRetry, hbudget]
    obtain ⟨hfst, hcached, -⟩ :=
      verifyEmailAdvanced_miss_admitted cfg net email (times 1) st hcache hrate
    cases hra : cfg.retryAttempts with
    | zero =>
      simp only [verifyWithRetryGo]
      constructor
      · simp
      · rw [hfst]; exact hnet
    | succ b =>
      cases hadv : verifyEmailAdvanced cfg net email (times 1) st with
      | mk r1 st1 =>
        rw [hadv] at hfst hcached
        simp only [Prod.fst, Prod.snd] at hfst hcached
        simp only [verifyWithRetryGo, hadv]
        rw [if_pos (by rw [hfst]; exact hnet)]
        rw [verifyWithRetryGo_cached cfg net times email (net st.netCalls) (times 1) hnet
          b 2 st1 hcached htimes]
        constructor
        · simp [List.range']
        · simpa using hnet
  refine ⟨?_, hdelays.1, ?_, ?_, hdelays.2⟩
  · intro st'
    rw [verifyWithRetry, hbudget]
    exact verifyWithRetryGo_delays_le cfg net times email cfg.retryAttempts 1 st'
  · rw [hdelays.1]
    simp
  · rw [hdelays.1]
    exact (List.pairwise_lt_range' 1 cfg.retryAttempts).map _
      (fun a b hab => by omega)

/-- Witness for C7: ceiling-free concrete run with `retryAttempts = 2`
and a probe that reports `temporary_failure`: exactly two retries with
delays 5000 then 10000, and the final status is still
`temporary_failure`. -/
theorem temporary_failure_retry_policy_witness :
    (verifyWithRetry ⟨3600000, 10, 60000, 2⟩
      (fun _ => { email := "a@b.c", isValid := false, status := Status.temporary_failure,
                  message := "Temporary failure: 451" })
      (fun _ => 5) "a@b.c" 1 emptyAdvState).2.2 = [5000, 10000] ∧
    (verifyWithRetry ⟨3600000, 10, 60000, 2⟩
      (fun _ => { email := "a@b.c", isValid := false, status := Status.temporary_failure,
                  message := "Temporary failure: 451" })
      (fun _ => 5) "a@b.c" 1 emptyAdvState).1.status = Status.temporary_failure :=
  ⟨((temporary_failure_retry_policy ⟨3600000, 10, 60000, 2⟩
      (fun _ => { email := "a@b.c", isValid := false, status := Status.temporary_failure,
                  message := "Temporary failure: 451" })
      (fun _ => 5) "a@b.c" emptyAdvState rfl (by decide) rfl
      (fun _ => by show 5 - 5 < 3600000; decide)).2.1).trans (by decide),
   (temporary_failure_retry_policy ⟨3600000, 10, 60000, 2⟩
      (fun _ => { email := "a@b.c", isValid := false, status := Status.temporary_failure,
                  message := "Temporary failure: 451" })
      (fun _ => 5) "a@b.c" emptyAdvState rfl (by decide) rfl
      (fun _ => by show 5 - 5 < 3600000; decide)).2.2.2.2⟩

/-- Counterexample to C4 as stated: with `retryAttempts = 1`, a first
attempt that probes the network and yields `temporary_failure` is cached;
the retry then re-checks the cache, hits the entry just stored, and
returns it with `fromCache = true` — a retry attempt does return a cache
hit — and the network is probed only once. -/
theorem retry_returns_cache_hit :
    (verifyWithRetry ⟨3600000, 10, 60000, 1⟩
      (fun _ => { email := "a@b.c", isValid := false, status := Status.temporary_failure,
                  message := "Temporary failure: 451" })
      (fun _ => 5) "a@b.c" 1 emptyAdvState).1.fromCache = true ∧
    (verifyWithRetry ⟨3600000, 10, 60000, 1⟩
      (fun _ => { email := "a@b.c", isValid := false, status := Status.temporary_failure,
                  message := "Temporary failure: 451" })
      (fun _ => 5) "a@b.c" 1 emptyAdvState).2.1.netCalls = 1 := by
  decide

/-- C4 amended: when an attempt yields `temporary_failure` within
`retryAttempts`, the pipeline is repeated for that address, but the
repeat re-checks the cache first; since the prior attempt stored its
outcome, a retry within the cache TTL returns the stored outcome as a
cache hit (`fromCache = true`) — performing no further rate-limit check
and no further network call (the total stays one probe). -/
theorem retry_rechecks_cache_first (cfg : Config) (net : Nat → Outcome)
    (times : Nat → Nat) (email : String) (st : AdvState)
    (hcache : st.cache email = none)
    (hrate : (checkRateLimit cfg (domainOf email) (times 1) st).1 = true)
    (hnet : (net st.netCalls).status = .temporary_failure)
    (htimes : ∀ k, times k - times 1 < cfg.cacheExpiry)
    (hbudget : 1 ≤ cfg.retryAttempts) :
    (verifyWithRetry cfg net times email 1 st).1 =
      { net st.netCalls with fromCache := true } ∧
    (verifyWithRetry cfg net times email 1 st).2.1.netCalls = st.netCalls + 1 := by
  have hbudget' : cfg.retryAttempts + 1 - 1 = cfg.retryAttempts := by omega
  rw [verifyWithRetry, hbudget']
  obtain ⟨hfst, hcached, hnc⟩ :=
    verifyEmailAdvanced_miss_admitted cfg net email (times 1) st hcache hrate
  cases hra : cfg.retryAttempts with
  | zero => omega
  | succ b =>
    cases hadv : verifyEmailAdvanced cfg net email (times 1) st with
    | mk r1 st1 =>
      rw [hadv] at hfst hcached hnc
      simp only [Prod.fst, Prod.snd] at hfst hcached hnc
      simp only [verifyWithRetryGo, hadv]
      rw [if_pos (by rw [hfst]; exact hnet)]
      rw [verifyWithRetryGo_cached cfg net times email (net st.netCalls) (times 1) hnet
        b 2 st1 hcached htimes]
      exact ⟨rfl, hnc⟩

/-- Witness for the amended C4 at the concrete instance of the
counterexample. -/
theorem retry_rechecks_cache_first_witness :
    (verifyWithRetry ⟨3600000, 10, 60000, 1⟩
      (fun _ => { email := "a@b.c", isValid := false, status := Status.temporary_failure,
                  message := "Temporary failure: 451" })
      (fun _ => 5) "a@b.c" 1 emptyAdvState).1 =
      { email := "a@b.c", isValid := false, status := Status.temporary_failure,
        message := "Temporary failure: 451", fromCache := true } ∧
    (verifyWithRetry ⟨3600000, 10, 60000, 1⟩
      (fun _ => { email := "a@b.c", isValid := false, status := Status.temporary_failure,
                  message := "Temporary failure: 451" })
      (fun _ => 5) "a@b.c" 1 emptyAdvState).2.1.netCalls = 0 + 1 :=
  retry_rechecks_cache_first ⟨3600000, 10, 60000, 1⟩
    (fun _ => { email := "a@b.c", isValid := false, status := Status.temporary_failure,
                message := "Temporary failure: 451" })
    (fun _ => 5) "a@b.c" emptyAdvState rfl (by decide) rfl (fun _ => by show 5 - 5 < 3600000; decide) (by decide)

/-- C10: on a cache miss, a rate-limit refusal stores nothing, while an
admitted attempt stores the orchestrator's outcome in the cache whatever
its status (the oracle `net` is arbitrary, so this covers
`temporary_failure`, `connection_failed`, `error`, …); consequently any
subsequent verification of the same address within the TTL is served
from the cache with `fromCache = true`, with no further state change and
no further network probe. -/
theorem orchestrator_outcomes_cached (cfg : Config) (net : Nat → Outcome)
    (email : String) (now : Nat) (st : AdvState)
    (hcache : st.cache email = none) :
    ((checkRateLimit cfg (domainOf email) now st).1 = false →
      (verifyEmailAdvanced cfg net email now st).1 = rateLimitedOutcome email ∧
      ((verifyEmailAdvanced cfg net email now st).2).cache email = none) ∧
    ((checkRateLimit cfg (domainOf email) now st).1 = true →
      ((verifyEmailAdvanced cfg net email now st).2).cache email =
        some (net st.netCalls, now) ∧
      (verifyEmailAdvanced cfg net email now st).1 = net st.netCalls ∧
      ((verifyEmailAdvanced cfg net email now st).2).netCalls = st.netCalls + 1 ∧
      (∀ (net' : Nat → Outcome) (now' : Nat), now' - now < cfg.cacheExpiry →
        verifyEmailAdvanced cfg net' email now'
            ((verifyEmailAdvanced cfg net email now st).2) =
          ({ net st.netCalls with fromCache := true },
           (verifyEmailAdvanced cfg net email now st).2))) := by
  have hget : getFromCache cfg email now st = (none, st) := by
    simp [getFromCache, hcache]
  constructor
  · intro hrl
    cases hcrl : checkRateLimit cfg (domainOf email) now st with
    | mk flag st2 =>
      rw [hcrl] at hrl
      simp only [Prod.fst] at hrl
      subst hrl
      have hpres := checkRateLimit_preserves cfg (domainOf email) now st
      rw [hcrl] at hpres
      simp only [Prod.fst, Prod.snd] at hpres
      refine ⟨?_, ?_⟩
      · simp [verifyEmailAdvanced, hget, hcrl]
      · simp [verifyEmailAdvanced, hget, hcrl, hpres.2, hcache]
  · intro hrl
    obtain ⟨hfst, hcached, hnc⟩ :=
      verifyEmailAdvanced_miss_admitted cfg net email now st hcache hrl
    refine ⟨hcached, hfst, hnc, ?_⟩
    intro net' now' hfresh
    rw [← hfst] at hcached ⊢
    exact verifyEmailAdvanced_hit cfg net' email now'
      (verifyEmailAdvanced cfg net email now st).2
      (verifyEmailAdvanced cfg net email now st).1 now hcached hfresh

/-- Witness for C10: a `connection_failed` outcome (a failure) is cached
and the next read within the TTL is served from the cache. -/
theorem orchestrator_outcomes_cached_witness :
    ((verifyEmailAdvanced ⟨3600000, 10, 60000, 2⟩
        (fun _ => connectionFailedOutcome "a@b.c") "a@b.c" 5 emptyAdvState).2).cache "a@b.c" =
      some (connectionFailedOutcome "a@b.c", 5) ∧
    verifyEmailAdvanced ⟨3600000, 10, 60000, 2⟩ (fun _ => rateLimitedOutcome "x") "a@b.c" 6
        ((verifyEmailAdvanced ⟨3600000, 10, 60000, 2⟩
          (fun _ => connectionFailedOutcome "a@b.c") "a@b.c" 5 emptyAdvState).2) =
      ({ connectionFailedOutcome "a@b.c" with fromCache := true },
       (verifyEmailAdvanced ⟨3600000, 10, 60000, 2⟩
         (fun _ => connectionFailedOutcome "a@b.c") "a@b.c" 5 emptyAdvState).2) :=
  ⟨((orchestrator_outcomes_cached ⟨3600000, 10, 60000, 2⟩
      (fun _ => connectionFailedOutcome "a@b.c") "a@b.c" 5 emptyAdvState rfl).2
      (by decide)).1,
   ((orchestrator_outcomes_cached ⟨3600000, 10, 60000, 2⟩
      (fun _ => connectionFailedOutcome "a@b.c") "a@b.c" 5 emptyAdvState rfl).2
      (by decide)).2.2.2 (fun _ => rateLimitedOutcome "x") 6 (by decide)⟩

/-! ## Domain resolution failure (claim C9) -/

/-- C9: a failing mail-exchange lookup yields `null` (not an error), and
`verifyEmail` turns that empty result into the terminal `no_mx_record`
outcome without probing any host. -/
theorem mx_lookup_failure_is_no_mx (err : String)
    (probe : String → Except String Outcome) (email : String)
    (hfmt : isValidEmailFormat email = true) :
    getMxRecords (.error err) = none ∧
    verifyEmail (.error err) probe email = (noMxRecordOutcome email, [], true) := by
  refine ⟨rfl, ?_⟩
  simp [verifyEmail, hfmt, getMxRecords]

/-- Witness for C9 at a concrete failing lookup. -/
theorem mx_lookup_failure_is_no_mx_witness :
    getMxRecords (.error "queryMx ENOTFOUND") = none ∧
    verifyEmail (.error "queryMx ENOTFOUND") (fun _ => Except.error "net") "a@b.c" =
      (noMxRecordOutcome "a@b.c", [], true) :=
  mx_lookup_failure_is_no_mx "queryMx ENOTFOUND" (fun _ => Except.error "net") "a@b.c"
    (by decide)

/-! ## The batch scheduler (claim C8) -/

theorem chunksOfGo_fuel_eq (size : Nat) :
    ∀ (fuel₁ fuel₂ : Nat) (l : List α), l.length ≤ fuel₁ → l.length ≤ fuel₂ →
    chunksOfGo size fuel₁ l = chunksOfGo size fuel₂ l := by
  intro fuel₁
  induction fuel₁ with
  | zero =>
    intro fuel₂ l h1 h2
    have hl : l = [] := List.length_eq_zero.1 (by omega)
    subst hl
    cases fuel₂ <;> rfl
  | succ fm ih =>
    intro fuel₂ l h1 h2
    cases l with
    | nil => cases fuel₂ <;> rfl
    | cons x xs =>
      cases fuel₂ with
      | zero => exact absurd h2 (by simp)
      | succ f2 =>
        simp only [chunksOfGo]
        congr 1
        refine ih f2 (xs.drop (size - 1)) ?_ ?_
        · simp only [List.length_drop]
          simp only [List.length_cons] at h1
          omega
        · simp only [List.length_drop]
          simp only [List.length_cons] at h2
          omega

theorem chunksOf_cons (size : Nat) (x : α) (xs : List α) :
    chunksOf size (x :: xs) =
      (x :: xs.take (size - 1)) :: chunksOf size (xs.drop (size - 1)) := by
  show chunksOfGo size (xs.length + 1) (x :: xs) = _
  simp only [chunksOfGo]
  congr 1
  refine chunksOfGo_fuel_eq size xs.length (xs.drop (size - 1)).length (xs.drop (size - 1))
    ?_ le_rfl
  simp only [List.length_drop]
  omega

theorem chunksOf_flatten (size : Nat) : ∀ l : List α, (chunksOf size l).flatten = l := by
  have key : ∀ (n : Nat) (l : List α), l.length ≤ n → (chunksOf size l).flatten = l := by
    intro n
    induction n with
    | zero =>
      intro l h
      have hl : l = [] := List.length_eq_zero.1 (by omega)
      subst hl
      rfl
    | succ m ih =>
      intro l h
      cases l with
      | nil => rfl
      | cons x xs =>
        rw [chunksOf_cons, List.flatten_cons,
          ih (xs.drop (size - 1))
            (by simp only [List.length_drop]; simp only [List.length_cons] at h; omega)]
        show x :: (xs.take (size - 1) ++ xs.drop (size - 1)) = x :: xs
        rw [List.take_append_drop]
  exact fun l => key l.length l le_rfl

/-- `processBatch` is a position-preserving map: chunking into
concurrency groups and appending the settled group results in order is
the identity on positions. -/
theorem processBatch_eq_map (f : String → Except String Outcome) (c : Nat)
    (emails : List String) :
    processBatch f c emails = emails.map (settledResult f) := by
  rw [processBatch, ← List.map_flatten, chunksOf_flatten]

theorem bulkGo_getElem (f : String → Except String Outcome) (bs c : Nat)
    (bt : Nat → Option String) (hbs : 0 < bs) :
    ∀ (n : Nat) (l : List String), l.length ≤ n → ∀ (b0 i : Nat),
    (bulkGo f c bt (chunksOf bs l) b0)[i]? =
      (l[i]?).map (fun e =>
        match bt (b0 + i / bs) with
        | some msg => batchErrorOutcome msg e
        | none => settledResult f e) := by
  intro n
  induction n with
  | zero =>
    intro l h b0 i
    have hl : l = [] := List.length_eq_zero.1 (by omega)
    subst hl
    simp [chunksOf, chunksOfGo, bulkGo]
  | succ m ih =>
    intro l h b0 i
    cases l with
    | nil => simp [chunksOf, chunksOfGo, bulkGo]
    | cons x xs =>
      simp only [List.length_cons] at h
      rw [chunksOf_cons]
      simp only [bulkGo]
      have hH : (match bt b0 with
          | some msg => (x :: xs.take (bs - 1)).map (batchErrorOutcome msg)
          | none => processBatch f c (x :: xs.take (bs - 1))) =
          (x :: xs.take (bs - 1)).map (fun e =>
            match bt b0 with
            | some msg => batchErrorOutcome msg e
            | none => settledResult f e) := by
        cases hb : bt b0
        · simp [processBatch_eq_map]
        · simp
      rw [hH]
      have hchunk : (x :: xs.take (bs - 1)) = (x :: xs).take bs := by
        cases bs with
        | zero => omega
        | succ b => rw [List.take_succ_cons]; rfl
      by_cases hi : i < (x :: xs.take (bs - 1)).length
      · rw [List.getElem?_append_left (by simpa using hi)]
        rw [List.getElem?_map]
        have hibs : i < bs := by
          have := hi
          rw [hchunk] at this
          simp only [List.length_take] at this
          omega
        have hidx : b0 + i / bs = b0 := by
          simp [Nat.div_eq_of_lt hibs]
        rw [hidx, hchunk, List.getElem?_take, if_pos hibs]
      · push_neg at hi
        rw [List.getElem?_append_right (by simpa using hi)]
        simp only [List.length_map]
        by_cases hsmall : xs.length + 1 ≤ bs
        · have hclen : (x :: xs.take (bs - 1)).length = xs.length + 1 := by
            simp only [List.length_cons, List.length_take]
            omega
          have hdropnil : xs.drop (bs - 1) = [] :=
            List.drop_eq_nil_of_le (by omega)
          rw [hdropnil]
          have hlhs : (bulkGo f c bt (chunksOf bs ([] : List String)) (b0 + 1))[i -
              (x :: xs.take (bs - 1)).length]? = none := by
            simp [chunksOf, chunksOfGo, bulkGo]
          rw [hlhs]
          have hrhs : (x :: xs)[i]? = none := by
            refine List.getElem?_eq_none ?_
            simp only [List.length_cons]
            omega
          rw [hrhs]
          rfl
        · push_neg at hsmall
          have hclen : (x :: xs.take (bs - 1)).length = bs := by
            simp only [List.length_cons, List.length_take]
            omega
          rw [hclen] at hi ⊢
          rw [ih (xs.drop (bs - 1))
            (by simp only [List.length_drop]; omega) (b0 + 1) (i - bs)]
          rw [List.getElem?_drop]
          have hxi : (bs - 1) + (i - bs) = i - 1 := by omega
          rw [hxi]
          obtain ⟨j, rfl⟩ : ∃ j, i = j + 1 := ⟨i - 1, by omega⟩
          rw [List.getElem?_cons_succ]
          have hdiv : (j + 1) / bs = (j + 1 - bs) / bs + 1 := by
            rw [← Nat.add_div_right (j + 1 - bs) hbs]
            congr 1
            omega
          have hidx : b0 + 1 + (j + 1 - bs) / bs = b0 + (j + 1) / bs := by
            rw [hdiv]
            omega
          rw [hidx]
          simp

/-- C8: the Batch Scheduler's output has the same length as its input
and `result[i]` is the outcome for input address `i` — computed from
that address alone and the fate of its batch (`batch_error` substitution
when batch `i / batchSize` throws, the settled per-address pipeline
result otherwise) — so a throwing batch never aborts or shifts the rest
of the run. -/
theorem scheduler_position_matching (f : String → Except String Outcome)
    (bt : Nat → Option String) (bs c : Nat) (hbs : 0 < bs) (emails : List String) :
    (processBulkEmails f bs c bt emails).length = emails.length ∧
    ∀ (i : Nat) (h : i < emails.length),
      (processBulkEmails f bs c bt emails)[i]? =
        some (expectedOutcomeAt f bs bt emails i h) := by
  have key : ∀ i : Nat, (processBulkEmails f bs c bt emails)[i]? =
      (emails[i]?).map (fun e =>
        match bt (0 + i / bs) with
        | some msg => batchErrorOutcome msg e
        | none => settledResult f e) :=
    fun i => bulkGo_getElem f bs c bt hbs emails.length emails le_rfl 0 i
  have hlen : (processBulkEmails f bs c bt emails).length = emails.length := by
    refine le_antisymm ?_ ?_
    · by_contra hc
      push_neg at hc
      have h1 := key emails.length
      rw [List.getElem?_eq_none le_rfl] at h1
      rw [List.getElem?_eq_getElem hc] at h1
      simp at h1
    · by_contra hc
      push_neg at hc
      have h1 := key (processBulkEmails f bs c bt emails).length
      rw [List.getElem?_eq_none le_rfl] at h1
      rw [List.getElem?_eq_getElem hc] at h1
      simp at h1
  refine ⟨hlen, ?_⟩
  intro i h
  rw [key i, List.getElem?_eq_getElem h]
  show some _ = some _
  congr 1
  rw [expectedOutcomeAt]
  simp only [Nat.zero_add]
  rfl

/-- Witness for C8: three addresses, batch size 2, concurrency 1, a
per-address oracle that rejects the second address, and a batch-level
throw on batch 1: every position still gets its own address's outcome. -/
theorem scheduler_position_matching_witness :
    (0 : Nat) < 2 ∧
    (processBulkEmails
      (fun e => if e = "d@e.f" then Except.error "boom"
                else Except.ok (connectionFailedOutcome e))
      2 1 (fun i => if i = 1 then some "crash" else none)
      ["a@b.c", "d@e.f", "g@h.i"]).length = 3 ∧
    (processBulkEmails
      (fun e => if e = "d@e.f" then Except.error "boom"
                else Except.ok (connectionFailedOutcome e))
      2 1 (fun i => if i = 1 then some "crash" else none)
      ["a@b.c", "d@e.f", "g@h.i"])[2]? =
      some (batchErrorOutcome "crash" "g@h.i") :=
  ⟨by decide,
   (scheduler_position_matching
      (fun e => if e = "d@e.f" then Except.error "boom"
                else Except.ok (connectionFailedOutcome e))
      (fun i => if i = 1 then some "crash" else none) 2 1 (by decide)
      ["a@b.c", "d@e.f", "g@h.i"]).1,
   ((scheduler_position_matching
      (fun e => if e = "d@e.f" then Except.error "boom"
                else Except.ok (connectionFailedOutcome e))
      (fun i => if i = 1 then some "crash" else none) 2 1 (by decide)
      ["a@b.c", "d@e.f", "g@h.i"]).2 2 (by decide)).trans (by decide)⟩

end SmtpVerify
